import Mathlib

/-!
Verification development for the `easy` layer of the ffav wrapper library
(`src/easy/writer.rs`, `src/easy/reader.rs`): a shallow embedding of the
`SplitWriter` rotation state machine, the `SimpleWriter` header/trailer
lifecycle and packet construction, and the `SimpleReader` demux loop,
together with theorems settling the specification claims about them.

Modelling conventions:
  - machine integers (`u64`, `usize`) become `Nat`; the embedded code never
    reaches the wrap-around range in the states the theorems talk about,
    and truncating `Nat` subtraction is noted wherever the source subtracts;
  - `Instant`/`Duration` become an explicit nanosecond clock: every
    time-dependent operation takes the current instant `now : Nat` and the
    fragment start instant is stored in the state;
  - the external mux/demux/bitstream-filter engine is an opaque
    collaborator: its operations enter the model as function parameters or
    as abstract success/failure booleans, exactly at the call sites where
    the source invokes it;
  - the `f32` field `max_overhead` only ever enters integer arithmetic
    through the cast `(max_overhead * 100.0) as u64`; the model stores that
    resulting integer percentage as `overheadPct`.
-/

namespace Ffav

/-! ### SplitWriter (src/easy/writer.rs, `struct SplitWriter`)

Each media description is represented by the one bit of information the
rotation policy reads from it: whether its codec is keyframe-bearing.
`MediaDesc::codec_id().has_gop()` lives in the `ffi` crate, outside the
sources given here; modelled from the spec: "the target stream is
keyframe-bearing (its descriptor declares GOP structure)", so a descriptor
is embedded as its `has_gop` boolean.

The live single-file writer (`writer: Option<Box<dyn Writer>>`) is
represented by the one quantity the policy reads from it, its current
`size()`, so `writer : Option Nat`.  The `deleted` field is
instrumentation: it records, in order, the fragment indices removed from
disk by `clean_files` (`std::fs::remove_file`). -/
structure SplitWriter where
  medias : List Bool
  writer : Option Nat
  maxFiles : Nat
  maxSizeBytes : Nat
  maxSizeTime : Nat
  overheadPct : Nat
  splitAtKeyframe : Bool
  startIndex : Nat
  currentIndex : Nat
  startTime : Nat
  started : Bool
  needKeyFrame : Bool
  splitWaitForKeyFrame : Bool
  deleted : List Nat
  deriving DecidableEq

/-- `SplitWriter::new` (writer.rs:481-514): `need_key_frame` is true iff some
descriptor's codec has GOP structure; both indices start at `start_index`;
no live writer yet; the start instant is the construction instant. -/
def SplitWriter.new (medias : List Bool) (maxFiles maxSizeBytes maxSizeTime overheadPct : Nat)
    (splitAtKeyframe : Bool) (startIndex : Nat) (now : Nat) : SplitWriter where
  medias := medias
  writer := none
  maxFiles := maxFiles
  maxSizeBytes := maxSizeBytes
  maxSizeTime := maxSizeTime
  overheadPct := overheadPct
  splitAtKeyframe := splitAtKeyframe
  startIndex := startIndex
  currentIndex := startIndex
  startTime := now
  started := false
  needKeyFrame := medias.any (fun b => b)
  splitWaitForKeyFrame := false
  deleted := []

/-- `SplitWriter::is_bytes_overrun` (writer.rs:517-525): true iff a live
writer exists, `max_size_bytes > 0` and `writer.size() >= max_size_bytes`. -/
def SplitWriter.is_bytes_overrun (w : SplitWriter) : Bool :=
  match w.writer with
  | some s => decide (0 < w.maxSizeBytes ∧ w.maxSizeBytes ≤ s)
  | none => false

/-- `SplitWriter::is_bytes_overflow` (writer.rs:528-537):
`overhead_bytes = max_size_bytes * ((max_overhead * 100.0) as u64) / 100`
with truncating integer division; true iff a live writer exists,
`max_size_bytes > 0` and `writer.size() >= max_size_bytes + overhead_bytes`. -/
def SplitWriter.is_bytes_overflow (w : SplitWriter) : Bool :=
  match w.writer with
  | some s =>
    decide (0 < w.maxSizeBytes ∧ w.maxSizeBytes + w.maxSizeBytes * w.overheadPct / 100 ≤ s)
  | none => false

/-- `SplitWriter::is_time_overrun` (writer.rs:540-543): true iff
`max_size_time > 0` and the elapsed time since `start_time` is at least
`max_size_time` nanoseconds.  Note the source does not require a live
writer here; elapsed time is `now - startTime`. -/
def SplitWriter.is_time_overrun (w : SplitWriter) (now : Nat) : Bool :=
  decide (0 < w.maxSizeTime ∧ w.maxSizeTime ≤ now - w.startTime)

/-- `SplitWriter::is_time_overflow` (writer.rs:546-550): same truncating
overhead arithmetic as `is_bytes_overflow`, applied to the time threshold. -/
def SplitWriter.is_time_overflow (w : SplitWriter) (now : Nat) : Bool :=
  decide (0 < w.maxSizeTime ∧
    w.maxSizeTime + w.maxSizeTime * w.overheadPct / 100 ≤ now - w.startTime)

/-- `SplitWriter::stream_has_key_frame` (writer.rs:624-626):
`self.medias[stream_index].codec_id().has_gop()`.  The source's indexing
panics when out of range; the claims only exercise in-range indices, and
the model totalises with `getD _ false`. -/
def SplitWriter.stream_has_key_frame (w : SplitWriter) (streamIndex : Nat) : Bool :=
  w.medias.getD streamIndex false

/-- `SplitWriter::can_split_now` (writer.rs:553-568), returning the decision
together with the updated state (the source mutates
`split_wait_for_key_frame` through `&mut self`). -/
def SplitWriter.can_split_now (w : SplitWriter) (now : Nat) (isKeyFrame : Bool)
    (streamIndex : Nat) : Bool × SplitWriter :=
  if w.splitWaitForKeyFrame then
    let splitNow := w.stream_has_key_frame streamIndex && isKeyFrame
    let w' := { w with splitWaitForKeyFrame := false }
    let overflow := w'.is_bytes_overflow || w'.is_time_overflow now
    (splitNow || overflow, w')
  else
    let overrun := w.is_bytes_overrun || w.is_time_overrun now
    if overrun && w.splitAtKeyframe && w.needKeyFrame then
      let w' := { w with splitWaitForKeyFrame := true }
      let overflow := w'.is_bytes_overflow || w'.is_time_overflow now
      (false || overflow, w')
    else
      let overflow := w.is_bytes_overflow || w.is_time_overflow now
      (overrun || overflow, w)

/-- `SplitWriter::clean_files` (writer.rs:571-579): the list (empty or a
singleton) of fragment indices whose files are removed by the call.  The
source computes `current_index - start_index` and
`current_index - (max_files - 1)` on `usize`; in every state the theorems
visit `start_index <= current_index` holds, where `Nat` truncating
subtraction agrees with the source. -/
def SplitWriter.clean_files (w : SplitWriter) : List Nat :=
  if 0 < w.maxFiles ∧ w.maxFiles - 1 ≤ w.currentIndex - w.startIndex then
    let index := w.currentIndex - (w.maxFiles - 1)
    if w.startIndex ≤ index then [index] else []
  else []

/-- `SplitWriter::split_now` (writer.rs:611-621): drop the live writer,
clean old files, increment the fragment index.  The before/after split
callbacks receive the old and new index respectively but do not touch the
modelled state. -/
def SplitWriter.split_now (w : SplitWriter) : SplitWriter :=
  { w with
    writer := none
    deleted := w.deleted ++ w.clean_files
    currentIndex := w.currentIndex + 1 }

/-- Iterated rotations: `w.rotations n` performs `split_now` `n` times. -/
def SplitWriter.rotations (w : SplitWriter) : Nat → SplitWriter
  | 0 => w
  | n + 1 => (w.rotations n).split_now

/-- Outcome of one `SplitWriter::write_bytes` call: whether the call
returned `Ok`, the state after the call (mutations before an early `?`
return persist, as with `&mut self` in the source), and, when the call
found no live writer, the fragment index at which it attempted to open a
fresh single-file writer. -/
structure WriteOutcome where
  ok : Bool
  next : SplitWriter
  openedAt : Option Nat
  deriving DecidableEq

/-- Step 1-2 of `SplitWriter::write_bytes` (writer.rs:416-418): consult
`can_split_now` and, when it says so, perform `split_now`.  The external
effects of the remainder of `write_bytes` enter as parameters: `openOk` is
whether `SimpleWriter::new` succeeds (on success the fresh writer has size
0 and the start instant is reset to `now`), `innerOk` is whether the
delegated `writer.write_bytes` succeeds, and `grow` is the size growth the
delegated write produces. -/
def SplitWriter.rotateStep (w : SplitWriter) (now : Nat) (isKeyFrame : Bool)
    (streamIndex : Nat) : SplitWriter :=
  let p := w.can_split_now now isKeyFrame streamIndex
  if p.1 then p.2.split_now else p.2

/-- Remainder of `SplitWriter::write_bytes` after the rotation step
(writer.rs:420-440): lazily open a fresh fragment when no live writer
exists, then delegate the write. -/
def SplitWriter.write_bytes (w : SplitWriter) (now : Nat) (isKeyFrame : Bool)
    (streamIndex : Nat) (openOk innerOk : Bool) (grow : Nat) : WriteOutcome :=
  let w1 := w.rotateStep now isKeyFrame streamIndex
  match w1.writer with
  | none =>
    if openOk then
      let w2 := { w1 with writer := some 0, startTime := now, started := true }
      if innerOk then
        { ok := true, next := { w2 with writer := some grow }, openedAt := some w1.currentIndex }
      else
        { ok := false, next := w2, openedAt := some w1.currentIndex }
    else
      { ok := false, next := w1, openedAt := some w1.currentIndex }
  | some s =>
    if innerOk then
      { ok := true, next := { w1 with writer := some (s + grow) }, openedAt := none }
    else
      { ok := false, next := w1, openedAt := none }

/-- Modelled from the spec: the overflow threshold as the claim reads it,
in exact rational arithmetic - `size >= threshold * (1 + overhead)`.  To
be compared with `SplitWriter.is_bytes_overflow`, which the source computes
with truncating integer arithmetic. -/
def specBytesOverflow (size maxSizeBytes : Nat) (overhead : ℚ) : Prop :=
  (maxSizeBytes : ℚ) * (1 + overhead) ≤ (size : ℚ)

/-! ### SimpleWriter (src/easy/writer.rs, `struct SimpleWriter`)

Header/trailer lifecycle.  The two flags mirror `header_writed` and
`trailer_writed`; the two counters instrument the engine calls
`ctx.write_header(..)` and `ctx.write_trailer()`, the observable container
header and trailer writes.  The claims quantify over successful
lifecycles, so the fallible engine calls are modelled as succeeding. -/
structure SimpleWriterM where
  headerWrited : Bool
  trailerWrited : Bool
  headerWrites : Nat
  trailerWrites : Nat
  deriving DecidableEq

/-- Fresh `SimpleWriter` as produced by `SimpleWriter::new`
(writer.rs:302-308): both flags false, no engine header/trailer call yet. -/
def SimpleWriterM.new : SimpleWriterM :=
  { headerWrited := false, trailerWrited := false, headerWrites := 0, trailerWrites := 0 }

/-- `SimpleWriter::write_bytes` (writer.rs:194-229), restricted to its
header/trailer effect: on the first successful call the container header
is written and `header_writed` set; the packet submission itself does not
touch the flags. -/
def SimpleWriterM.write_bytes (w : SimpleWriterM) : SimpleWriterM :=
  if w.headerWrited then w
  else { w with headerWrited := true, headerWrites := w.headerWrites + 1 }

/-- `SimpleWriter::write_trailer` (writer.rs:232-239): the trailer is
written only when the header has been written and the trailer has not. -/
def SimpleWriterM.write_trailer (w : SimpleWriterM) : SimpleWriterM :=
  if w.headerWrited && !w.trailerWrited then
    { w with trailerWrited := true, trailerWrites := w.trailerWrites + 1 }
  else w

/-- `SimpleWriter::close` (writer.rs:242-245): `write_trailer` then a flush
(no flag or counter effect). -/
def SimpleWriterM.close (w : SimpleWriterM) : SimpleWriterM :=
  w.write_trailer

/-- The caller-visible operations of a `SimpleWriter` lifecycle. -/
inductive WriterOp
  | writeBytes
  | writeTrailer
  | close
  | flush
  deriving DecidableEq

/-- Detect the header-triggering operation in an operation list. -/
def WriterOp.isWriteBytes : WriterOp → Bool
  | .writeBytes => true
  | _ => false

/-- Apply one lifecycle operation. -/
def SimpleWriterM.applyOp (w : SimpleWriterM) : WriterOp → SimpleWriterM
  | .writeBytes => w.write_bytes
  | .writeTrailer => w.write_trailer
  | .close => w.close
  | .flush => w

/-- Run a lifecycle operation sequence left to right. -/
def SimpleWriterM.runOps (w : SimpleWriterM) : List WriterOp → SimpleWriterM
  | [] => w
  | op :: rest => (w.applyOp op).runOps rest

/-- A whole successful lifecycle: construction, the caller's operation
sequence, then disposal (`Drop for SimpleWriter` calls `close`,
writer.rs:175-179). -/
def SimpleWriterM.lifecycle (ops : List WriterOp) : SimpleWriterM :=
  (SimpleWriterM.new.runOps ops).close

/-! ### SimpleWriter stream opening and packet construction -/

/-- The codec identity of a media description, reduced to the distinction
`SimpleWriter::new` makes (writer.rs:278-300): H264 and HEVC descriptors
open an output stream, every other codec id falls into the `_ => {}` arm. -/
inductive CodecKind
  | h264
  | hevc
  | other
  deriving DecidableEq

/-- Whether `SimpleWriter::new` opens an output stream for this codec id
(the `AV_CODEC_ID_H264 | AV_CODEC_ID_HEVC` match arm). -/
def CodecKind.opensStream : CodecKind → Bool
  | .h264 => true
  | .hevc => true
  | .other => false

/-- The `streams` vector built by `SimpleWriter::new` (writer.rs:275-301):
one entry per descriptor whose codec id is H264 or HEVC, in order. -/
def streamsOf (descs : List CodecKind) : List CodecKind :=
  descs.filter CodecKind.opensStream

/-- The stream lookup performed by `SimpleWriter::write_bytes`
(writer.rs:207): `self.streams.get(stream_index)`; the source then calls
`.unwrap()`, so a `none` result is the fatal programming-error branch. -/
def streamLookup (descs : List CodecKind) (streamIndex : Nat) : Option CodecKind :=
  (streamsOf descs).get? streamIndex

/-- A rational timebase as carried by the descriptors and streams. -/
structure TimeBase where
  num : Int
  den : Int
  deriving DecidableEq

/-- The packet assembled by `SimpleWriter::write_bytes` (writer.rs:206-228).
`AV_PKT_FLAG_KEY` is the engine's keyframe flag bit. -/
structure OutPacket where
  pts : Int
  dts : Int
  size : Nat
  streamIndex : Nat
  flags : Nat
  duration : Int
  pos : Int
  deriving DecidableEq

/-- The engine keyframe flag bit set by `write_bytes`. -/
def AV_PKT_FLAG_KEY : Nat := 1

/-- Packet construction inside `SimpleWriter::write_bytes`
(writer.rs:210-224).  The engine's rescaling routines `av_rescale_q_rnd`
(round to nearest, pass min/max sentinels) and `av_rescale_q` are external
collaborators and enter as the function parameters `rescaleRnd` and
`rescale`; the packet's pts and dts are both set to the one rescaled pts. -/
def mkPacket (rescaleRnd rescale : Int → TimeBase → TimeBase → Int)
    (inTimeBase outTimeBase : TimeBase) (pts duration : Int) (isKeyFrame : Bool)
    (size : Nat) (streamIndex : Nat) : OutPacket :=
  let p := rescaleRnd pts inTimeBase outTimeBase
  { pts := p
    dts := p
    size := size
    streamIndex := streamIndex
    flags := if isKeyFrame then AV_PKT_FLAG_KEY else 0
    duration := rescale duration inTimeBase outTimeBase
    pos := -1 }

/-! ### SimpleReader (src/easy/reader.rs)

A bitstream normalizer (`AVBSFContextOwned`) is an external collaborator
reached through `receive_packet`/`send_packet`; it is modelled by its
pending output queue plus its response to a submitted payload: `none`
models a `send_packet` failure, `some outs` models acceptance producing
`outs` as new buffered output.  Packet payloads are abstract (`Nat`); the
pts/dts/duration rescaling `read_frame` applies before submitting does not
affect which of the loop's exit paths is taken and is not modelled. -/
structure Bsf where
  buffered : List Nat
  submitOut : Nat → Option (List Nat)

/-- A demuxed packet as `read_frame` sees it: its stream index and an
abstract payload. -/
structure RPacket where
  streamIndex : Nat
  payload : Nat
  deriving DecidableEq

/-- One pass of the `for bsf in self.bsfs` receive loop
(reader.rs:131-141): the first normalizer with pending output yields a
packet; `Again` and `Reason` results are both skipped. -/
def recvFirst : List Bsf → Option Nat
  | [] => none
  | b :: rest =>
    match b.buffered with
    | [] => recvFirst rest
    | q :: _ => some q

/-- Whether any normalizer has pending buffered output. -/
def hasBuffered (bsfs : List Bsf) : Bool :=
  bsfs.any fun b => !b.buffered.isEmpty

/-- `SimpleReader::read_frame` (reader.rs:128-182) over a finite source
(the remaining packets `ctx.read_frame` will deliver).  The result is
`none` for the out-of-bounds panic of `self.bsfs[stream_index]`
(reader.rs:173), `some none` for the function's `None` return, and
`some (some q)` for `Some(packet)`. -/
def readFrame : List Bsf → List RPacket → Option (Option Nat)
  | bsfs, [] =>
    match recvFirst bsfs with
    | some q => some (some q)
    | none => some none
  | bsfs, p :: rest =>
    match recvFirst bsfs with
    | some q => some (some q)
    | none =>
      match bsfs.get? p.streamIndex with
      | none => none
      | some b =>
        match b.submitOut p.payload with
        | none => some none
        | some outs =>
          readFrame (bsfs.set p.streamIndex { b with buffered := b.buffered ++ outs }) rest

/-- A discovered input stream as `SimpleReader::open` sees it: whether it
carries codec parameters (abstract payload when present). -/
structure RStream where
  codecpar : Option Nat
  deriving DecidableEq

/-- The normalizer list built by `SimpleReader::open` (reader.rs:75-87):
one bitstream normalizer per discovered stream that has codec parameters,
in stream order; streams without codec parameters contribute none.  The
construction of the filter from the parameters (`AVBSFContextOwned::new` +
`prepare`) is the external collaborator `mk`. -/
def mkBsfs (mk : Nat → Bsf) (streams : List RStream) : List Bsf :=
  streams.filterMap fun s => s.codecpar.map mk

/-! ### Concrete states used by counterexamples and witnesses -/

/-- A `SplitWriter` in the armed state whose live writer is far past the
overflow threshold: one keyframe-bearing stream, `max_size_bytes = 10`,
overhead percentage 10 (so the hard threshold is `10 + 10 * 10 / 100 = 11`
bytes), live writer of size 100. -/
def armedOverflowW : SplitWriter where
  medias := [true]
  writer := some 100
  maxFiles := 0
  maxSizeBytes := 10
  maxSizeTime := 0
  overheadPct := 10
  splitAtKeyframe := true
  startIndex := 0
  currentIndex := 0
  startTime := 0
  started := true
  needKeyFrame := true
  splitWaitForKeyFrame := true
  deleted := []

/-- A `SplitWriter` in the armed state whose live writer has passed the
soft threshold (`size 10 >= max_size_bytes 8`) but not the hard one
(`8 + 8 * 50 / 100 = 12 > 10`). -/
def armedOverrunW : SplitWriter where
  medias := [true]
  writer := some 10
  maxFiles := 0
  maxSizeBytes := 8
  maxSizeTime := 0
  overheadPct := 50
  splitAtKeyframe := true
  startIndex := 0
  currentIndex := 0
  startTime := 0
  started := true
  needKeyFrame := true
  splitWaitForKeyFrame := true
  deleted := []

/-- A retention scenario start state: one keyframe-bearing stream,
`max_files = 2`, `start_index = 100`. -/
def retainW : SplitWriter :=
  SplitWriter.new [true] 2 0 0 10 true 100 0

/-- A `SplitWriter` constructed at instant 0 with only the time threshold
enabled (`max_size_time = 5` ns), keyframe alignment off. -/
def timeSplitW : SplitWriter :=
  SplitWriter.new [false] 0 0 5 10 false 0 0

/-- The outcome of a first `write_bytes` call on `timeSplitW` at instant 0
whose fragment open fails. -/
def timeSplitFailed : WriteOutcome :=
  timeSplitW.write_bytes 0 false 0 false true 0

/-- Writer state whose size 4 sits between the truncated integer overflow
threshold (`3 + 3 * 50 / 100 = 4`) and the exact rational one
(`3 * (1 + 1/2) = 9/2`).  `overheadPct = 50` is the exact value of
`(max_overhead * 100.0) as u64` for `max_overhead = 0.5f32`. -/
def truncOverflowW : SplitWriter where
  medias := [true]
  writer := some 4
  maxFiles := 0
  maxSizeBytes := 3
  maxSizeTime := 0
  overheadPct := 50
  splitAtKeyframe := true
  startIndex := 0
  currentIndex := 0
  startTime := 0
  started := true
  needKeyFrame := true
  splitWaitForKeyFrame := false
  deleted := []

/-- A normalizer with no buffered output whose submit always fails. -/
def failingBsf : Bsf :=
  { buffered := [], submitOut := fun _ => none }

/-- A normalizer with no buffered output whose submit always succeeds and
produces no output. -/
def quietBsf : Bsf :=
  { buffered := [], submitOut := fun _ => some [] }

/-! ## Helper lemmas -/

/-- The overflow check reads no field that `can_split_now` mutates, so it
is unchanged by toggling the armed flag. -/
theorem is_bytes_overflow_set_flag (w : SplitWriter) (b : Bool) :
    ({ w with splitWaitForKeyFrame := b } : SplitWriter).is_bytes_overflow =
      w.is_bytes_overflow := rfl

/-- Same as `is_bytes_overflow_set_flag` for the time overflow check. -/
theorem is_time_overflow_set_flag (w : SplitWriter) (b : Bool) (now : Nat) :
    ({ w with splitWaitForKeyFrame := b } : SplitWriter).is_time_overflow now =
      w.is_time_overflow now := rfl

/-- In the armed state, `can_split_now` decides from the keyframe test and
the overflow escape, and clears the armed flag. -/
theorem can_split_now_armed (w : SplitWriter) (now : Nat) (k : Bool) (si : Nat)
    (h : w.splitWaitForKeyFrame = true) :
    w.can_split_now now k si =
      ((w.stream_has_key_frame si && k) || (w.is_bytes_overflow || w.is_time_overflow now),
        { w with splitWaitForKeyFrame := false }) := by
  simp only [SplitWriter.can_split_now, h, if_true,
    is_bytes_overflow_set_flag, is_time_overflow_set_flag]

/-- `can_split_now` never touches the fragment index. -/
theorem can_split_now_snd_currentIndex (w : SplitWriter) (now : Nat) (k : Bool) (si : Nat) :
    (w.can_split_now now k si).2.currentIndex = w.currentIndex := by
  simp only [SplitWriter.can_split_now]
  split
  · rfl
  · split <;> rfl

/-- `can_split_now` never touches the live writer. -/
theorem can_split_now_snd_writer (w : SplitWriter) (now : Nat) (k : Bool) (si : Nat) :
    (w.can_split_now now k si).2.writer = w.writer := by
  simp only [SplitWriter.can_split_now]
  split
  · rfl
  · split <;> rfl

/-- When the overflow escape condition holds, `can_split_now` answers
`true` whatever branch it took. -/
theorem can_split_now_fst_of_overflow (w : SplitWriter) (now : Nat) (k : Bool) (si : Nat)
    (h : (w.is_bytes_overflow || w.is_time_overflow now) = true) :
    (w.can_split_now now k si).1 = true := by
  simp only [SplitWriter.can_split_now]
  split
  · simp [is_bytes_overflow_set_flag, is_time_overflow_set_flag, h]
  · split
    · simp [is_bytes_overflow_set_flag, is_time_overflow_set_flag, h]
    · simp [h]

/-- A positive rotation decision advances the fragment index by one,
whatever the open and delegate outcomes are. -/
theorem write_bytes_rotates (w : SplitWriter) (now : Nat) (k : Bool) (si : Nat)
    (openOk innerOk : Bool) (grow : Nat)
    (h : (w.can_split_now now k si).1 = true) :
    (w.write_bytes now k si openOk innerOk grow).next.currentIndex = w.currentIndex + 1 := by
  have hstep : w.rotateStep now k si = (w.can_split_now now k si).2.split_now := by
    simp only [SplitWriter.rotateStep, h, if_true]
  have hwr : (w.rotateStep now k si).writer = none := by rw [hstep]; rfl
  have hci : (w.rotateStep now k si).currentIndex = w.currentIndex + 1 := by
    rw [hstep]
    show (w.can_split_now now k si).2.currentIndex + 1 = w.currentIndex + 1
    rw [can_split_now_snd_currentIndex]
  simp only [SplitWriter.write_bytes]
  split
  · cases openOk
    · simpa using hci
    · cases innerOk <;> simpa using hci
  · rename_i s hs
    rw [hwr] at hs
    cases hs

/-! ## Claim theorems -/

/-- C1, counterexample: in the `ArmedForKeyframe` state on a non-keyframe
packet the claim predicts no rotation, but `armedOverflowW` is past the
hard overflow threshold and `can_split_now` answers `true` anyway - the
claim's "if and only if" omits the overflow escape hatch. -/
theorem c1_armed_counterexample :
    (armedOverflowW.can_split_now 0 false 0).1 = true ∧
    (armedOverflowW.stream_has_key_frame 0 && false) = false := by
  exact ⟨rfl, rfl⟩

/-- C1 (amended): on a `write_bytes` call in the `ArmedForKeyframe` state,
rotation fires iff the target stream is keyframe-bearing and the packet is
a keyframe, OR the overflow escape condition holds on that call; the armed
flag is cleared by the call regardless of the outcome. -/
theorem c1_armed_rotation (w : SplitWriter) (now : Nat) (k : Bool) (si : Nat)
    (h : w.splitWaitForKeyFrame = true) :
    (w.can_split_now now k si).1 =
      ((w.stream_has_key_frame si && k) || (w.is_bytes_overflow || w.is_time_overflow now)) ∧
    (w.can_split_now now k si).2.splitWaitForKeyFrame = false := by
  rw [can_split_now_armed w now k si h]
  exact ⟨rfl, rfl⟩

/-- C1 witness: `c1_armed_rotation` instantiated at the armed state
`armedOverrunW` receiving a keyframe. -/
theorem c1_armed_rotation_witness :
    (armedOverrunW.can_split_now 0 true 0).1 =
      ((armedOverrunW.stream_has_key_frame 0 && true) ||
        (armedOverrunW.is_bytes_overflow || armedOverrunW.is_time_overflow 0)) ∧
    (armedOverrunW.can_split_now 0 true 0).2.splitWaitForKeyFrame = false :=
  c1_armed_rotation armedOverrunW 0 true 0 rfl

/-- C2: while armed and with no qualifying keyframe, a call on which the
overflow escape condition does not hold never rotates (in particular a
mere overrun does not rotate); and whenever the overflow condition holds,
`can_split_now` answers `true` and the call advances the fragment index -
for every armed state, keyframe policy and keyframe flag. -/
theorem c2_overflow_escape_precedence :
    (∀ (w : SplitWriter) (now : Nat) (k : Bool) (si : Nat),
        w.splitWaitForKeyFrame = true →
        (w.stream_has_key_frame si && k) = false →
        (w.is_bytes_overflow || w.is_time_overflow now) = false →
        (w.can_split_now now k si).1 = false) ∧
    (∀ (w : SplitWriter) (now : Nat) (k : Bool) (si : Nat),
        (w.is_bytes_overflow || w.is_time_overflow now) = true →
        (w.can_split_now now k si).1 = true ∧
        ∀ (openOk innerOk : Bool) (grow : Nat),
          (w.write_bytes now k si openOk innerOk grow).next.currentIndex =
            w.currentIndex + 1) := by
  constructor
  · intro w now k si h1 h2 h3
    rw [can_split_now_armed w now k si h1]
    show ((w.stream_has_key_frame si && k) ||
      (w.is_bytes_overflow || w.is_time_overflow now)) = false
    rw [h2, h3]
    rfl
  · intro w now k si h
    refine ⟨can_split_now_fst_of_overflow w now k si h, ?_⟩
    intro openOk innerOk grow
    exact write_bytes_rotates w now k si openOk innerOk grow
      (can_split_now_fst_of_overflow w now k si h)

/-- C2 witness: the starvation half at the armed state `armedOverrunW`
(overrun but not overflow, non-keyframe packet), and the escape half at
`armedOverflowW` (past the hard threshold). -/
theorem c2_overflow_escape_precedence_witness :
    (armedOverrunW.can_split_now 0 false 0).1 = false ∧
    (armedOverflowW.can_split_now 0 false 0).1 = true ∧
    (armedOverflowW.write_bytes 0 false 0 true true 7).next.currentIndex =
      armedOverflowW.currentIndex + 1 :=
  ⟨c2_overflow_escape_precedence.1 armedOverrunW 0 false 0 rfl rfl rfl,
    (c2_overflow_escape_precedence.2 armedOverflowW 0 false 0 rfl).1,
    (c2_overflow_escape_precedence.2 armedOverflowW 0 false 0 rfl).2 true true 7⟩

/-- `clean_files` at a reachable state (`start_index <= current_index`,
`max_files >= 1`): it deletes exactly index `current_index - (max_files-1)`
and exactly when `current_index - start_index >= max_files - 1` (the inner
`index >= start_index` guard is then automatic). -/
theorem clean_files_char (v : SplitWriter) (hF : 1 ≤ v.maxFiles)
    (hle : v.startIndex ≤ v.currentIndex) :
    v.clean_files =
      if v.maxFiles - 1 ≤ v.currentIndex - v.startIndex
      then [v.currentIndex - (v.maxFiles - 1)] else [] := by
  unfold SplitWriter.clean_files
  rcases le_or_lt (v.maxFiles - 1) (v.currentIndex - v.startIndex) with hc | hc
  · simp only [if_pos (show 0 < v.maxFiles ∧
        v.maxFiles - 1 ≤ v.currentIndex - v.startIndex from ⟨by omega, hc⟩),
      if_pos hc,
      if_pos (show v.startIndex ≤ v.currentIndex - (v.maxFiles - 1) by omega)]
  · simp only [if_neg (show ¬(0 < v.maxFiles ∧
        v.maxFiles - 1 ≤ v.currentIndex - v.startIndex) from fun hx => absurd hx.2 (by omega)),
      if_neg (show ¬(v.maxFiles - 1 ≤ v.currentIndex - v.startIndex) by omega)]

/-- Full trajectory of `N` rotations from a fresh retention state: the
index advances one per rotation and the deleted files are exactly the
first `N - (max_files - 1)` indices from `start_index`, in order. -/
theorem rotations_state (w : SplitWriter) (hF : 1 ≤ w.maxFiles)
    (h1 : w.currentIndex = w.startIndex) (h2 : w.deleted = []) :
    ∀ N : Nat,
      (w.rotations N).currentIndex = w.startIndex + N ∧
      (w.rotations N).startIndex = w.startIndex ∧
      (w.rotations N).maxFiles = w.maxFiles ∧
      (w.rotations N).deleted =
        (List.range (N - (w.maxFiles - 1))).map (w.startIndex + ·) := by
  intro N
  induction N with
  | zero =>
    refine ⟨by simpa [SplitWriter.rotations] using h1, rfl, rfl, ?_⟩
    simp [SplitWriter.rotations, h2]
  | succ n ih =>
    obtain ⟨ihc, ihs, ihf, ihd⟩ := ih
    have hclean : (w.rotations n).clean_files =
        if w.maxFiles - 1 ≤ n then [w.startIndex + (n - (w.maxFiles - 1))] else [] := by
      rw [clean_files_char (w.rotations n) (by omega) (by omega)]
      rw [ihc, ihs, ihf]
      rcases le_or_lt (w.maxFiles - 1) n with hc | hc
      · rw [if_pos (by omega), if_pos hc]
        congr 1
        omega
      · rw [if_neg (by omega), if_neg (by omega)]
    refine ⟨?_, ?_, ?_, ?_⟩
    · show ((w.rotations n).split_now).currentIndex = w.startIndex + (n + 1)
      simp only [SplitWriter.split_now]
      omega
    · exact ihs
    · exact ihf
    · show ((w.rotations n).split_now).deleted =
        (List.range (n + 1 - (w.maxFiles - 1))).map (w.startIndex + ·)
      simp only [SplitWriter.split_now, ihd, hclean]
      rcases le_or_lt (w.maxFiles - 1) n with hc | hc
      · rw [if_pos hc, show n + 1 - (w.maxFiles - 1) = (n - (w.maxFiles - 1)) + 1 by omega,
          List.range_succ, List.map_append]
        rfl
      · rw [if_neg (show ¬(w.maxFiles - 1 ≤ n) by omega),
          show n + 1 - (w.maxFiles - 1) = 0 by omega,
          show n - (w.maxFiles - 1) = 0 by omega]
        simp

/-- C3: with `max_files = F >= 1`, after `N` rotations from a fresh state
the deleted fragment files are exactly the `max(0, N - F + 1)` consecutive
indices starting at `start_index` (so each deletion removed the oldest
not-yet-deleted index `>= start_index`); and a single rotation deletes,
exactly when `current_index - start_index >= F - 1`, the index
`current_index - (F - 1)`. -/
theorem c3_retention (w : SplitWriter) (hF : 1 ≤ w.maxFiles)
    (h1 : w.currentIndex = w.startIndex) (h2 : w.deleted = []) (N : Nat) :
    (w.rotations N).deleted =
      (List.range (N - (w.maxFiles - 1))).map (w.startIndex + ·) ∧
    ((w.rotations N).deleted.length : ℤ) = max 0 ((N : ℤ) - w.maxFiles + 1) ∧
    (∀ v : SplitWriter, 1 ≤ v.maxFiles → v.startIndex ≤ v.currentIndex →
        v.clean_files =
          if v.maxFiles - 1 ≤ v.currentIndex - v.startIndex
          then [v.currentIndex - (v.maxFiles - 1)] else []) := by
  obtain ⟨_, _, _, hdel⟩ := rotations_state w hF h1 h2 N
  refine ⟨hdel, ?_, fun v hv1 hv2 => clean_files_char v hv1 hv2⟩
  rw [hdel, List.length_map, List.length_range]
  omega

/-- C3 witness: `c3_retention` at `retainW` (`max_files = 2`,
`start_index = 100`) after three rotations. -/
theorem c3_retention_witness :
    (retainW.rotations 3).deleted =
      (List.range (3 - (retainW.maxFiles - 1))).map (retainW.startIndex + ·) ∧
    ((retainW.rotations 3).deleted.length : ℤ) = max 0 ((3 : ℤ) - retainW.maxFiles + 1) ∧
    (∀ v : SplitWriter, 1 ≤ v.maxFiles → v.startIndex ≤ v.currentIndex →
        v.clean_files =
          if v.maxFiles - 1 ≤ v.currentIndex - v.startIndex
          then [v.currentIndex - (v.maxFiles - 1)] else []) :=
  c3_retention retainW (by decide) rfl rfl 3

/-- One lifecycle operation sets `header_writed` exactly when it is a
`write_bytes`. -/
theorem applyOp_headerWrited (w : SimpleWriterM) (op : WriterOp) :
    (w.applyOp op).headerWrited = (w.headerWrited || op.isWriteBytes) := by
  cases op <;>
    cases hh : w.headerWrited <;> cases ht : w.trailerWrited <;>
      simp_all [SimpleWriterM.applyOp, SimpleWriterM.write_bytes,
        SimpleWriterM.write_trailer, SimpleWriterM.close, WriterOp.isWriteBytes]

/-- One lifecycle operation preserves the counter invariant: each counter
equals its flag, and the trailer is only ever written after the header. -/
theorem applyOp_invariant (w : SimpleWriterM) (op : WriterOp)
    (h1 : w.headerWrites = (if w.headerWrited then 1 else 0))
    (h2 : w.trailerWrites = (if w.trailerWrited then 1 else 0))
    (h3 : w.trailerWrited = true → w.headerWrited = true) :
    (w.applyOp op).headerWrites = (if (w.applyOp op).headerWrited then 1 else 0) ∧
    (w.applyOp op).trailerWrites = (if (w.applyOp op).trailerWrited then 1 else 0) ∧
    ((w.applyOp op).trailerWrited = true → (w.applyOp op).headerWrited = true) := by
  cases op <;>
    cases hh : w.headerWrited <;> cases ht : w.trailerWrited <;>
      simp_all [SimpleWriterM.applyOp, SimpleWriterM.write_bytes,
        SimpleWriterM.write_trailer, SimpleWriterM.close]

/-- Running a lifecycle operation sequence keeps the counter invariant and
tracks `header_writed` as "some `write_bytes` has happened". -/
theorem runOps_invariant : ∀ (ops : List WriterOp) (w : SimpleWriterM),
    w.headerWrites = (if w.headerWrited then 1 else 0) →
    w.trailerWrites = (if w.trailerWrited then 1 else 0) →
    (w.trailerWrited = true → w.headerWrited = true) →
    ((w.runOps ops).headerWrites = (if (w.runOps ops).headerWrited then 1 else 0) ∧
      (w.runOps ops).trailerWrites = (if (w.runOps ops).trailerWrited then 1 else 0) ∧
      ((w.runOps ops).trailerWrited = true → (w.runOps ops).headerWrited = true) ∧
      (w.runOps ops).headerWrited = (w.headerWrited || ops.any WriterOp.isWriteBytes))
  | [], w, h1, h2, h3 => by
    simpa [SimpleWriterM.runOps] using ⟨h1, h2, h3⟩
  | op :: rest, w, h1, h2, h3 => by
    obtain ⟨g1, g2, g3⟩ := applyOp_invariant w op h1 h2 h3
    obtain ⟨k1, k2, k3, k4⟩ := runOps_invariant rest (w.applyOp op) g1 g2 g3
    refine ⟨k1, k2, k3, ?_⟩
    show ((w.applyOp op).runOps rest).headerWrited = _
    rw [k4, applyOp_headerWrited, List.any_cons, Bool.or_assoc]

/-- C4, counterexample: a lifecycle with zero `write_bytes` calls does not
produce one header write and one trailer write - `write_trailer` is
guarded by `header_writed`, which never becomes true, so neither the
header nor the trailer is ever written. -/
theorem c4_zero_write_counterexample :
    ¬ ((SimpleWriterM.lifecycle []).headerWrites = 1 ∧
        (SimpleWriterM.lifecycle []).trailerWrites = 1) := by
  decide

/-- C4 (amended): in every successful lifecycle containing at least one
`write_bytes` call, exactly one container-header write and exactly one
trailer write occur, regardless of how many `write_bytes`, `write_trailer`
or `close` calls are made; a lifecycle with zero `write_bytes` calls
writes neither header nor trailer. -/
theorem c4_header_trailer_once (ops : List WriterOp) :
    (ops.any WriterOp.isWriteBytes = true →
      (SimpleWriterM.lifecycle ops).headerWrites = 1 ∧
      (SimpleWriterM.lifecycle ops).trailerWrites = 1) ∧
    (ops.any WriterOp.isWriteBytes = false →
      (SimpleWriterM.lifecycle ops).headerWrites = 0 ∧
      (SimpleWriterM.lifecycle ops).trailerWrites = 0) := by
  obtain ⟨k1, k2, k3, k4⟩ :=
    runOps_invariant ops SimpleWriterM.new rfl rfl (fun h => h)
  have hlc : SimpleWriterM.lifecycle ops =
      (SimpleWriterM.new.runOps ops).write_trailer := rfl
  constructor
  · intro ha
    have hh : (SimpleWriterM.new.runOps ops).headerWrited = true := by
      rw [k4, ha]
      rfl
    rw [hlc]
    unfold SimpleWriterM.write_trailer
    cases ht : (SimpleWriterM.new.runOps ops).trailerWrited <;>
      simp_all
  · intro ha
    have hh : (SimpleWriterM.new.runOps ops).headerWrited = false := by
      rw [k4, ha]
      rfl
    have ht : (SimpleWriterM.new.runOps ops).trailerWrited = false := by
      cases htt : (SimpleWriterM.new.runOps ops).trailerWrited
      · rfl
      · rw [k3 htt] at hh
        cases hh
    rw [hlc]
    unfold SimpleWriterM.write_trailer
    simp_all

/-- C4 witness: `c4_header_trailer_once` at a lifecycle with one
`write_bytes` followed by an explicit `close` and a redundant
`write_trailer`. -/
theorem c4_header_trailer_once_witness :
    (SimpleWriterM.lifecycle
      [WriterOp.writeBytes, WriterOp.close, WriterOp.writeTrailer]).headerWrites = 1 ∧
    (SimpleWriterM.lifecycle
      [WriterOp.writeBytes, WriterOp.close, WriterOp.writeTrailer]).trailerWrites = 1 :=
  (c4_header_trailer_once
    [WriterOp.writeBytes, WriterOp.close, WriterOp.writeTrailer]).1 rfl

/-- When the rotation step left no live writer, `write_bytes` attempts to
open a fresh fragment at the post-rotation-step index, whatever the open
and delegate outcomes. -/
theorem write_bytes_openedAt_of_no_writer (w : SplitWriter) (now : Nat) (k : Bool) (si : Nat)
    (openOk innerOk : Bool) (g : Nat)
    (hw : (w.rotateStep now k si).writer = none) :
    (w.write_bytes now k si openOk innerOk g).openedAt =
      some (w.rotateStep now k si).currentIndex := by
  simp only [SplitWriter.write_bytes]
  split
  · cases openOk
    · rfl
    · cases innerOk <;> rfl
  · rename_i s hs
    rw [hw] at hs
    cases hs

/-- A `write_bytes` call whose open attempt fails returns the error
outcome with the post-rotation-step state kept. -/
theorem write_bytes_open_failed (w : SplitWriter) (now : Nat) (k : Bool) (si : Nat)
    (innerOk : Bool) (g : Nat)
    (hw : (w.rotateStep now k si).writer = none) :
    w.write_bytes now k si false innerOk g =
      { ok := false, next := w.rotateStep now k si,
        openedAt := some (w.rotateStep now k si).currentIndex } := by
  simp only [SplitWriter.write_bytes]
  split
  · rfl
  · rename_i s hs
    rw [hw] at hs
    cases hs

/-- When the rotation step left a live writer, no open is attempted. -/
theorem write_bytes_openedAt_of_writer (w : SplitWriter) (now : Nat) (k : Bool) (si : Nat)
    (openOk innerOk : Bool) (g : Nat) (s : Nat)
    (hw : (w.rotateStep now k si).writer = some s) :
    (w.write_bytes now k si openOk innerOk g).openedAt = none := by
  simp only [SplitWriter.write_bytes]
  split
  · rename_i hs
    rw [hw] at hs
    cases hs
  · cases innerOk <;> rfl

/-- A negative rotation decision makes the rotation step a no-op. -/
theorem rotateStep_of_not_split (w : SplitWriter) (now : Nat) (k : Bool) (si : Nat)
    (h : (w.can_split_now now k si).1 = false) :
    w.rotateStep now k si = (w.can_split_now now k si).2 := by
  simp [SplitWriter.rotateStep, h]

/-- C5, counterexample: on `timeSplitW` (time threshold 5 ns, keyframe
alignment off) the first `write_bytes` fails to open fragment 0 and leaves
no live writer, yet the next call - 10 ns later, past the time threshold -
rotates first and attempts to open fragment 1, not fragment 0. -/
theorem c5_index_advance_counterexample :
    timeSplitFailed.ok = false ∧
    timeSplitFailed.next.writer = none ∧
    timeSplitFailed.openedAt = some 0 ∧
    (timeSplitFailed.next.write_bytes 10 false 0 true true 0).openedAt = some 1 :=
  ⟨rfl, rfl, rfl, rfl⟩

/-- C5 (amended): a `write_bytes` call whose fragment open fails does not
advance the fragment index during that call (the state it leaves holds
exactly the index it tried to open, and no live writer); the next call
attempts to open at that same index provided its own rotation decision
does not fire - with a reached time threshold (or a pending armed
keyframe) the next call may rotate first and open at the incremented
index. -/
theorem c5_failed_open_index :
    (∀ (w : SplitWriter) (now : Nat) (k : Bool) (si : Nat) (innerOk : Bool) (g : Nat) (i : Nat),
        (w.write_bytes now k si false innerOk g).openedAt = some i →
        (w.write_bytes now k si false innerOk g).ok = false ∧
        (w.write_bytes now k si false innerOk g).next.currentIndex = i ∧
        (w.write_bytes now k si false innerOk g).next.writer = none) ∧
    (∀ (w : SplitWriter) (now : Nat) (k : Bool) (si : Nat) (openOk innerOk : Bool) (g : Nat),
        w.writer = none →
        (w.can_split_now now k si).1 = false →
        (w.write_bytes now k si openOk innerOk g).openedAt = some w.currentIndex) := by
  constructor
  · intro w now k si innerOk g i h
    cases hw : (w.rotateStep now k si).writer with
    | none =>
      rw [write_bytes_open_failed w now k si innerOk g hw] at h ⊢
      have hi : (w.rotateStep now k si).currentIndex = i := Option.some.inj h
      exact ⟨rfl, hi, hw⟩
    | some s =>
      rw [write_bytes_openedAt_of_writer w now k si false innerOk g s hw] at h
      cases h
  · intro w now k si openOk innerOk g hw hs
    have hstep : w.rotateStep now k si = (w.can_split_now now k si).2 :=
      rotateStep_of_not_split w now k si hs
    have hnone : (w.rotateStep now k si).writer = none := by
      rw [hstep, can_split_now_snd_writer, hw]
    rw [write_bytes_openedAt_of_no_writer w now k si openOk innerOk g hnone,
      hstep, can_split_now_snd_currentIndex]

/-- C5 witness: `c5_failed_open_index` at the concrete failing call on
`timeSplitW` and at a quiescent retry (both thresholds unreached). -/
theorem c5_failed_open_index_witness :
    ((timeSplitW.write_bytes 0 false 0 false true 0).ok = false ∧
      (timeSplitW.write_bytes 0 false 0 false true 0).next.currentIndex = 0 ∧
      (timeSplitW.write_bytes 0 false 0 false true 0).next.writer = none) ∧
    (timeSplitW.write_bytes 0 false 0 true true 0).openedAt = some timeSplitW.currentIndex :=
  ⟨c5_failed_open_index.1 timeSplitW 0 false 0 true 0 0 rfl,
    c5_failed_open_index.2 timeSplitW 0 false 0 true true 0 rfl rfl⟩

/-- Truncating `Nat` division of `a * b` by 100 is the rational floor of
the exact quotient. -/
theorem nat_div_100_as_floor (a b : Nat) :
    a * b / 100 = Nat.floor (((a : ℚ) * (b : ℚ)) / 100) := by
  rw [show ((a : ℚ) * (b : ℚ)) = ((a * b : ℕ) : ℚ) by push_cast; ring,
    show ((100 : ℚ)) = ((100 : ℕ) : ℚ) by norm_num,
    Nat.floor_div_nat, Nat.floor_natCast]

/-- C6, counterexample: with `max_size_bytes = 3` and
`max_overhead = 0.5f32` (so `(max_overhead * 100.0) as u64 = 50` exactly),
the code's truncated threshold is `3 + 3 * 50 / 100 = 4`, so
`is_bytes_overflow` is already true at size 4, although
`4 < 3 * (1 + 1/2) = 9/2`: the claimed exact-arithmetic iff fails. -/
theorem c6_truncation_counterexample :
    truncOverflowW.is_bytes_overflow = true ∧
    ¬ specBytesOverflow 4 truncOverflowW.maxSizeBytes (1 / 2) := by
  refine ⟨rfl, ?_⟩
  intro h
  norm_num [specBytesOverflow, truncOverflowW] at h

/-- C6 (amended): with a live writer of size `s` and `max_size_bytes > 0`,
`is_bytes_overflow` is true iff
`s >= max_size_bytes + floor(max_size_bytes * pct / 100)` where `pct` is
the integer percentage `(max_overhead * 100.0) as u64` and the inner
division is the exact rational quotient floored (the source's truncating
integer division); `is_time_overflow` behaves the same on the elapsed
nanoseconds against `max_size_time`, additionally requiring
`max_size_time > 0`. -/
theorem c6_overflow_thresholds (w : SplitWriter) (s : Nat)
    (hw : w.writer = some s) (hb : 0 < w.maxSizeBytes) :
    (w.is_bytes_overflow = true ↔
      w.maxSizeBytes +
        Nat.floor (((w.maxSizeBytes : ℚ) * (w.overheadPct : ℚ)) / 100) ≤ s) ∧
    (∀ now : Nat, w.is_time_overflow now = true ↔
      0 < w.maxSizeTime ∧
        w.maxSizeTime +
          Nat.floor (((w.maxSizeTime : ℚ) * (w.overheadPct : ℚ)) / 100) ≤
          now - w.startTime) := by
  constructor
  · unfold SplitWriter.is_bytes_overflow
    rw [hw, ← nat_div_100_as_floor, decide_eq_true_eq]
    exact ⟨fun h => h.2, fun h => ⟨hb, h⟩⟩
  · intro now
    unfold SplitWriter.is_time_overflow
    rw [← nat_div_100_as_floor, decide_eq_true_eq]

/-- C6 witness: `c6_overflow_thresholds` at `armedOverflowW` (live writer
of size 100, byte threshold 10, overhead percentage 10). -/
theorem c6_overflow_thresholds_witness :
    (armedOverflowW.is_bytes_overflow = true ↔
      armedOverflowW.maxSizeBytes +
        Nat.floor (((armedOverflowW.maxSizeBytes : ℚ) * (armedOverflowW.overheadPct : ℚ)) / 100) ≤
        100) ∧
    (∀ now : Nat, armedOverflowW.is_time_overflow now = true ↔
      0 < armedOverflowW.maxSizeTime ∧
        armedOverflowW.maxSizeTime +
          Nat.floor (((armedOverflowW.maxSizeTime : ℚ) * (armedOverflowW.overheadPct : ℚ)) / 100) ≤
          now - armedOverflowW.startTime) :=
  c6_overflow_thresholds armedOverflowW 100 rfl (by decide)

/-- C7, counterexample: with the descriptor list [audio, H264-video],
`stream_index = 1` is a valid index into the descriptors, yet only the
video descriptor opened a stream, so the stream lookup of
`SimpleWriter::write_bytes` hits the fatal `unwrap`-on-`None` branch. -/
theorem c7_valid_desc_index_counterexample :
    streamLookup [CodecKind.other, CodecKind.h264] 1 = none ∧
    1 < ([CodecKind.other, CodecKind.h264] : List CodecKind).length := by
  exact ⟨rfl, by norm_num⟩

/-- C7 (amended): the fatal branch of the stream lookup in
`SimpleWriter::write_bytes` is unreachable exactly for `stream_index`
valid into the list of streams actually opened by `new` - one per H264 or
HEVC descriptor, in order; every index at or past that list's length
(which can include valid indices into `descs` when non-video descriptors
are present) hits the fatal branch. -/
theorem c7_stream_index_contract (descs : List CodecKind) (i : Nat)
    (h : i < (streamsOf descs).length) :
    (streamLookup descs i).isSome = true ∧
    ∀ j : Nat, (streamsOf descs).length ≤ j → streamLookup descs j = none := by
  constructor
  · unfold streamLookup
    rw [List.get?_eq_get h]
    rfl
  · intro j hj
    unfold streamLookup
    exact List.get?_eq_none.mpr hj

/-- C7 witness: `c7_stream_index_contract` at the single-H264 descriptor
list and stream index 0. -/
theorem c7_stream_index_contract_witness :
    (streamLookup [CodecKind.h264] 0).isSome = true ∧
    ∀ j : Nat, (streamsOf [CodecKind.h264]).length ≤ j →
      streamLookup [CodecKind.h264] j = none :=
  c7_stream_index_contract [CodecKind.h264] 0 (by decide)

/-- C9: the packet submitted by `SimpleWriter::write_bytes` always carries
`dts` equal to its rescaled `pts` - for every rescaling collaborator,
timebase pair and caller input. -/
theorem c9_dts_equals_pts (rescaleRnd rescale : Int → TimeBase → TimeBase → Int)
    (inTB outTB : TimeBase) (pts duration : Int) (isKeyFrame : Bool)
    (size streamIndex : Nat) :
    (mkPacket rescaleRnd rescale inTB outTB pts duration isKeyFrame size streamIndex).dts =
      (mkPacket rescaleRnd rescale inTB outTB pts duration isKeyFrame size streamIndex).pts :=
  rfl

/-- The receive sweep yields nothing iff no normalizer has buffered
output. -/
theorem recvFirst_eq_none_iff (bsfs : List Bsf) :
    recvFirst bsfs = none ↔ hasBuffered bsfs = false := by
  induction bsfs with
  | nil => simp [recvFirst, hasBuffered]
  | cons b rest ih =>
    cases hb : b.buffered with
    | nil => simp [recvFirst, hasBuffered, hb, List.any_cons] at ih ⊢; exact ih
    | cons q qs => simp [recvFirst, hasBuffered, hb, List.any_cons]

/-- With some buffered output pending, the receive sweep yields a packet. -/
theorem recvFirst_some_of_hasBuffered (bsfs : List Bsf) (h : hasBuffered bsfs = true) :
    ∃ q, recvFirst bsfs = some q := by
  cases hr : recvFirst bsfs with
  | none =>
    rw [recvFirst_eq_none_iff] at hr
    rw [hr] at h
    cases h
  | some q => exact ⟨q, rfl⟩

/-- C8: `read_frame` returns `None` when the source is exhausted with no
normalizer holding buffered output, and when a submit to a normalizer
fails - the failure is reported as the `None` return value, not as an
error; and it never returns `None` on a call that finds buffered output
pending (it returns a packet then). -/
theorem c8_read_frame_none_exactly :
    (∀ bsfs : List Bsf, hasBuffered bsfs = false → readFrame bsfs [] = some none) ∧
    (∀ (bsfs : List Bsf) (p : RPacket) (rest : List RPacket) (b : Bsf),
        hasBuffered bsfs = false → bsfs.get? p.streamIndex = some b →
        b.submitOut p.payload = none → readFrame bsfs (p :: rest) = some none) ∧
    (∀ (bsfs : List Bsf) (source : List RPacket), hasBuffered bsfs = true →
        ∃ q, readFrame bsfs source = some (some q)) ∧
    (∀ (bsfs : List Bsf) (source : List RPacket),
        readFrame bsfs source = some none → hasBuffered bsfs = false) := by
  have hbuf : ∀ (bsfs : List Bsf) (source : List RPacket), hasBuffered bsfs = true →
      ∃ q, readFrame bsfs source = some (some q) := by
    intro bsfs source h
    obtain ⟨q, hq⟩ := recvFirst_some_of_hasBuffered bsfs h
    cases source <;> exact ⟨q, by simp [readFrame, hq]⟩
  refine ⟨?_, ?_, hbuf, ?_⟩
  · intro bsfs h
    have hr := (recvFirst_eq_none_iff bsfs).mpr h
    simp [readFrame, hr]
  · intro bsfs p rest b h hget hsub
    have hr := (recvFirst_eq_none_iff bsfs).mpr h
    rw [List.get?_eq_getElem?] at hget
    simp [readFrame, hr, hget, hsub]
  · intro bsfs source h
    cases hb : hasBuffered bsfs with
    | false => rfl
    | true =>
      obtain ⟨q, hq⟩ := hbuf bsfs source hb
      rw [hq] at h
      cases h

/-- C8 witness: `c8_read_frame_none_exactly` at a single empty normalizer
whose submit fails, fed one packet. -/
theorem c8_read_frame_none_exactly_witness :
    readFrame [failingBsf] [{ streamIndex := 0, payload := 5 }] = some none :=
  c8_read_frame_none_exactly.2.1 [failingBsf] { streamIndex := 0, payload := 5 } []
    failingBsf rfl rfl rfl

/-- The normalizer list of `open` has one entry per codec-parameter
bearing stream. -/
theorem mkBsfs_length (mk : Nat → Bsf) (streams : List RStream) :
    (mkBsfs mk streams).length = (streams.filter fun s => s.codecpar.isSome).length := by
  induction streams with
  | nil => rfl
  | cons s rest ih =>
    cases hc : s.codecpar <;>
      simp [mkBsfs, List.filterMap_cons, List.filter_cons, hc, ih] <;>
      simpa [mkBsfs] using ih

/-- `read_frame` never reaches the unchecked-index panic as long as every
incoming packet's stream index is within the normalizer list. -/
theorem readFrame_ne_none : ∀ (source : List RPacket) (bsfs : List Bsf),
    (∀ p ∈ source, p.streamIndex < bsfs.length) → readFrame bsfs source ≠ none := by
  intro source
  induction source with
  | nil =>
    intro bsfs _
    cases hr : recvFirst bsfs <;> simp [readFrame, hr]
  | cons p rest ih =>
    intro bsfs h
    cases hr : recvFirst bsfs with
    | some q => simp [readFrame, hr]
    | none =>
      have hp : p.streamIndex < bsfs.length := h p (List.mem_cons_self p rest)
      cases hget : bsfs.get? p.streamIndex with
      | none =>
        rw [List.get?_eq_none] at hget
        omega
      | some b =>
        cases hsub : b.submitOut p.payload with
        | none =>
          simp only [readFrame, hr, hget, hsub]
          simp
        | some outs =>
          have hrec := ih (bsfs.set p.streamIndex { b with buffered := b.buffered ++ outs })
            (fun q hq => by rw [List.length_set]; exact h q (List.mem_cons_of_mem p hq))
          simp only [readFrame, hr, hget, hsub]
          exact hrec

/-- C10: `open` builds exactly one bitstream normalizer per discovered
stream that has codec parameters; when every discovered stream has codec
parameters, the normalizer list is as long as the stream list and
`read_frame`'s unchecked indexing of it cannot go out of bounds for any
source whose packets carry valid stream indices. -/
theorem c10_normalizer_per_stream (mk : Nat → Bsf) (streams : List RStream) :
    ((mkBsfs mk streams).length = (streams.filter fun s => s.codecpar.isSome).length) ∧
    ((∀ s ∈ streams, s.codecpar.isSome = true) →
      (mkBsfs mk streams).length = streams.length ∧
      ∀ source : List RPacket, (∀ p ∈ source, p.streamIndex < streams.length) →
        readFrame (mkBsfs mk streams) source ≠ none) := by
  refine ⟨mkBsfs_length mk streams, ?_⟩
  intro hall
  have hlen : (mkBsfs mk streams).length = streams.length := by
    rw [mkBsfs_length, List.filter_eq_self.mpr hall]
  refine ⟨hlen, fun source hsrc => ?_⟩
  exact readFrame_ne_none source (mkBsfs mk streams)
    (fun p hp => by rw [hlen]; exact hsrc p hp)

/-- C10 witness: `c10_normalizer_per_stream` at a single
codec-parameter-bearing stream and a one-packet source with a valid
stream index. -/
theorem c10_normalizer_per_stream_witness :
    readFrame (mkBsfs (fun _ => quietBsf) [{ codecpar := some 7 }])
      [{ streamIndex := 0, payload := 3 }] ≠ none :=
  ((c10_normalizer_per_stream (fun _ => quietBsf) [{ codecpar := some 7 }]).2
    (by decide)).2 [{ streamIndex := 0, payload := 3 }] (by decide)

end Ffav
